import Mathlib

/-!
Verification of the asynchronous batched image-ingest pipeline of
`matlab/src/vl_imreadjpeg2.cu` (matconvnet).  The definitions below are a
shallow embedding of the dispatcher (`mexFunction`), the batch state machine
(`Batch`), the per-item transform-plan computation (`Batch::prefetch`) and the
worker pipeline (`ReaderTask::entryPoint`).  Machine doubles are modelled as
exact rationals; a division whose C counterpart divides by zero is modelled
with an `Option` result (`none` = no well-defined value, where the C code
produces inf/NaN).
-/

/- ------------------------------------------------------------------ -/
/- Dispatcher: filename comparison with the prefetched batch          -/
/- ------------------------------------------------------------------ -/

/-- Embedding of the dispatcher's reuse test (`mexFunction`, the loop
computing `sameAsPrefeteched`): starting from `true`, for every index `i` of
the incoming list it ands in
`i < batch.getNumberOfItems() && batch.getItem(i)->name == filenames[i]`.
`registered` is the list of names of the items currently in the batch, in
order; `incoming` is the parsed `FILENAMES` argument. -/
def sameAsPrefetched (registered incoming : List String) : Bool :=
  (List.range incoming.length).foldl
    (fun acc i => acc && (decide (i < registered.length) && (registered[i]? == incoming[i]?)))
    true

/- ------------------------------------------------------------------ -/
/- Item state machine                                                 -/
/- ------------------------------------------------------------------ -/

/-- The per-item state enum (`Batch::Item::State`).  The source calls the
first state `prefetch`; the specification calls it `probe`. -/
inductive IState where
  | probe
  | fetch
  | ready
deriving DecidableEq

/-- Position of a state in the order probe -> fetch -> ready claimed by the
specification ("monotonically advances probe -> fetch -> ready"). -/
def stateRank : IState → ℕ
  | IState.probe => 0
  | IState.fetch => 1
  | IState.ready => 2

/-- The operations that touch one item's `state` field after
`registerItem` created it in state `probe`:
`borrow` is `Batch::borrowNextItem` (marks the item borrowed, leaves `state`
unchanged), `ret` is `Batch::returnItem` (unconditionally sets
`item->state = Batch::Item::ready`), and `promote` is the per-item body of
`Batch::prefetch` (unconditionally sets `item->state = Item::fetch`). -/
inductive ItemOp where
  | borrow
  | ret
  | promote
deriving DecidableEq

/-- Effect of one operation on an item's state, read off the source:
`borrowNextItem` does not write `state`; `returnItem` writes `ready`;
`prefetch` writes `fetch`. -/
def applyItemOp : IState → ItemOp → IState
  | s, ItemOp.borrow => s
  | _, ItemOp.ret => IState.ready
  | _, ItemOp.promote => IState.fetch

/-- The sequence of states an item passes through when the given operations
run in order, starting from the state `registerItem` gives it. -/
def stateTraceFrom : IState → List ItemOp → List IState
  | s, [] => [s]
  | s, op :: ops => s :: stateTraceFrom (applyItemOp s op) ops

/-- States observed by an item created by `registerItem`
(`item->state = Item::prefetch`, i.e. probe). -/
def stateTrace (ops : List ItemOp) : List IState :=
  stateTraceFrom IState.probe ops

/-- A state sequence never regresses when every adjacent pair advances (or
stays) in the order probe -> fetch -> ready. -/
def statesMonotone : List IState → Bool
  | [] => true
  | [_] => true
  | a :: b :: rest => decide (stateRank a ≤ stateRank b) && statesMonotone (b :: rest)

/- ------------------------------------------------------------------ -/
/- Worker pool size reconciliation                                    -/
/- ------------------------------------------------------------------ -/

/-- Worker count actually used (`mexFunction`:
`requestedNumThreads = std::max(requestedNumThreads, 1)`). -/
def effectiveNumThreads (requested : ℤ) : ℤ :=
  max requested 1

/-- Embedding of the reader-pool reconciliation in `mexFunction`: when
`readers.size() != requestedNumThreads`, the loop
`for (r = 0; r < requestedNumThreads; ++r) readers.push_back(new ReaderTask())`
appends `requestedNumThreads` new elements to the existing vector, which is
never cleared.  The result is the size of `readers` after the call. -/
def updatedPoolSize (oldSize : ℕ) (requested : ℤ) : ℕ :=
  let q := (effectiveNumThreads requested).toNat
  if oldSize ≠ q then oldSize + q else oldSize

/- ------------------------------------------------------------------ -/
/- Claims C1, C2, C3                                                  -/
/- ------------------------------------------------------------------ -/

/-- C1: evaluation of the dispatcher's reuse test at the failing input.  The
source computes `sameAsPrefeteched` as a per-index conjunction over the
*incoming* list only and never compares the lengths, so an incoming list that
is a strict prefix of the registered names (here `["a.jpg"]` against
registered `["a.jpg", "b.jpg"]`) is declared "same" and the old two-item
batch is reused, although the claim (and the comment in the source, "If the
list of names is not the same as the prefetched ones, start a new cycle")
requires reuse only on an exact match.  The last conjunct shows the direction
that does hold: an exactly equal list is reused. -/
theorem c1_reuse_accepts_strict_prefix :
    sameAsPrefetched ["a.jpg", "b.jpg"] ["a.jpg"] = true
    ∧ (["a.jpg"] : List String) ≠ ["a.jpg", "b.jpg"]
    ∧ sameAsPrefetched ["a.jpg", "b.jpg"] ["a.jpg", "b.jpg"] = true := by
  refine ⟨by decide, by decide, by decide⟩

/-- C2 counterexample: the claim "no reachable execution of `registerItem`,
`borrowNextItem`, `returnItem` and `prefetch` makes an item's state regress
in the order probe -> fetch -> ready" is false.  The operation sequence below
is exactly the dispatcher's own cycle for one item: `registerItem` (state
probe), a worker borrows it and probes, `returnItem` (which sets state
`ready`), then `Batch::prefetch` promotes the item (sets state `fetch`).
The observed trace probe, probe, ready, fetch contains the regression
ready -> fetch. -/
theorem c2_state_regression :
    statesMonotone (stateTrace [ItemOp.borrow, ItemOp.ret, ItemOp.promote]) = false
    ∧ stateTrace [ItemOp.borrow, ItemOp.ret, ItemOp.promote]
        = [IState.probe, IState.probe, IState.ready, IState.fetch] := by
  refine ⟨by decide, by decide⟩

/-- C2 amended: within a single phase (no `prefetch` promotion among the
operations) an item's state never regresses, and over a full cycle the item
observes exactly probe, ready, fetch, ready: `returnItem` already marks the
item `ready` at the end of the probe phase and `Batch::prefetch` then moves
it back to `fetch`. -/
theorem c2_phase_monotone (ops : List ItemOp) (h : ItemOp.promote ∉ ops) :
    statesMonotone (stateTrace ops) = true
    ∧ stateTrace [ItemOp.ret, ItemOp.promote, ItemOp.ret]
        = [IState.probe, IState.ready, IState.fetch, IState.ready] := by
  constructor
  · have key : ∀ (l : List ItemOp) (s : IState), ItemOp.promote ∉ l →
        statesMonotone (stateTraceFrom s l) = true := by
      intro l
      induction l with
      | nil => intro s _; rfl
      | cons op rest ih =>
        intro s hmem
        have hop : op ≠ ItemOp.promote := by
          intro heq; exact hmem (heq ▸ List.mem_cons_self op rest)
        have hrest : ItemOp.promote ∉ rest := by
          intro hc; exact hmem (List.mem_cons_of_mem op hc)
        have hstep : stateRank s ≤ stateRank (applyItemOp s op) := by
          cases op with
          | borrow => exact le_refl _
          | ret => cases s <;> simp [applyItemOp, stateRank]
          | promote => exact absurd rfl hop
        have htail := ih (applyItemOp s op) hrest
        cases rest with
        | nil =>
          simp [stateTraceFrom, statesMonotone, hstep]
        | cons op2 rest2 =>
          simp only [stateTraceFrom] at htail ⊢
          simp only [statesMonotone, Bool.and_eq_true, decide_eq_true_eq]
          exact ⟨hstep, htail⟩
    exact key ops IState.probe h
  · decide

/-- C2 witness: the amended monotonicity applied to a concrete
promotion-free operation list. -/
theorem c2_phase_monotone_witness :
    ItemOp.promote ∉ [ItemOp.borrow, ItemOp.ret]
    ∧ (statesMonotone (stateTrace [ItemOp.borrow, ItemOp.ret]) = true
       ∧ stateTrace [ItemOp.ret, ItemOp.promote, ItemOp.ret]
           = [IState.probe, IState.ready, IState.fetch, IState.ready]) :=
  ⟨by decide, c2_phase_monotone [ItemOp.borrow, ItemOp.ret] (by decide)⟩

/-- C3: evaluation of the pool reconciliation at the failing input.  With a
current pool of 2 workers and 4 requested, the source appends 4 new readers
to the un-cleared vector, so the pool afterwards has 6 workers, not the
requested 4 (the claim "rebuilds the worker pool so that afterwards the pool
size equals the requested count" holds only when the pool starts empty). -/
theorem c3_pool_grows_instead_of_matching :
    updatedPoolSize 2 4 = 6
    ∧ updatedPoolSize 2 4 ≠ 4
    ∧ updatedPoolSize 0 4 = 4 := by
  refine ⟨by decide, by decide, by decide⟩

/- ------------------------------------------------------------------ -/
/- Resize plan (Batch::prefetch, resize switch)                       -/
/- ------------------------------------------------------------------ -/

/-- The resize modes (`Batch::ResizeMethod`). -/
inductive ResizeMethod where
  | noResize
  | resizeShortestSide
  | fixedSize
deriving DecidableEq

/-- Scale factor of the shortest-side resize (`Batch::prefetch`):
`scale1 = resizeHeight / shape.width`, `scale2 = resizeHeight / shape.height`,
`scale = max(scale1, scale2)`; the parser stores the single `RESIZE` value
in `resizeHeight`. -/
def shortestScale (inH inW S : ℕ) : ℚ :=
  max ((S : ℚ) / (inW : ℚ)) ((S : ℚ) / (inH : ℚ))

/-- Output height and width of the shortest-side resize
(`outputHeight = max(1.0, round(scale * shape.height))`, similarly for the
width). -/
def shortestSideOutput (inH inW S : ℕ) : ℤ × ℤ :=
  let scale := shortestScale inH inW S
  (max 1 (round (scale * (inH : ℚ))), max 1 (round (scale * (inW : ℚ))))

/-- The `vl::TensorShape(outputHeight, outputWidth, outputNumChannels, 1)`
allocated for one item in individual packing under shortest-side resize;
`outputNumChannels = shape.depth` because `packingMethod == individualArrays`. -/
def individualItemShape (inH inW inC S : ℕ) : ℤ × ℤ × ℕ × ℕ :=
  ((shortestSideOutput inH inW S).1, (shortestSideOutput inH inW S).2, inC, 1)

/-- Uniform sampling used by `Batch::prefetch` for the crop-anisotropy and
crop-size draws: `z * (max - min) + min` with `z = rand()/RAND_MAX ∈ [0,1]`. -/
def sampleUniform (lo hi z : ℚ) : ℚ :=
  z * (hi - lo) + lo

/-- C4: for a 64x48x3 input (MATLAB height x width x channels) and
shortest-side resize to 32, the plan's scale is
`max(32/64, 32/48) = max(32/48, 32/64) = 2/3`, the allocated per-item tensor
is (43, 32, 3, 1), the identical repeated call is detected as prefetched
(so it is reused and does no probe/decode work), and with the default
anisotropy and size ranges [1,1] every random draw yields the same plan,
so the result is identical on a re-call. -/
theorem c4_shortest_side_shape :
    shortestScale 64 48 32 = 2/3
    ∧ individualItemShape 64 48 3 32 = (43, 32, 3, 1)
    ∧ sameAsPrefetched ["A.jpg"] ["A.jpg"] = true
    ∧ ∀ z : ℚ, sampleUniform 1 1 z = 1 := by
  have hscale : shortestScale 64 48 32 = 2/3 := by
    rw [shortestScale]
    rw [show ((32 : ℕ) : ℚ) / ((48 : ℕ) : ℚ) = 2/3 by norm_num]
    rw [show ((32 : ℕ) : ℚ) / ((64 : ℕ) : ℚ) = 1/2 by norm_num]
    rw [max_eq_left (by norm_num)]
  refine ⟨hscale, ?_, by decide, fun z => by simp [sampleUniform]⟩
  rw [individualItemShape, shortestSideOutput, hscale]
  norm_num [round_eq]

/- ------------------------------------------------------------------ -/
/- Dispatcher configuration checks (mexFunction)                      -/
/- ------------------------------------------------------------------ -/

/-- The configuration errors relevant here, in the order the source tests
for them: `CONTRAST is not in the [0,1] range`, `SATURATION is not in the
[0,1] range` (both raised while parsing the options), and `PACK must be used
in combination with resizing to a fixed size` (raised only after the batch
was found not to be reusable). -/
inductive ConfigError where
  | contrastRange
  | saturationRange
  | packNeedsFixedResize
deriving DecidableEq

/-- Embedding of one `mexFunction` call's configuration handling: the scalar
range checks run during option parsing (`if (x < 0 || x > 1.0) vlmxError`),
then the incoming filenames are compared with the prefetched batch, and only
when they do not match (`!sameAsPrefeteched`) is the pack/fixed-resize
compatibility check reached.  Returns `ok true` when the existing prefetch
is reused, `ok false` when a new cycle is started. -/
def processCall (prev incoming : List String) (pack : Bool) (rm : ResizeMethod)
    (contrast saturation : ℚ) : Except ConfigError Bool :=
  if contrast < 0 ∨ 1 < contrast then Except.error ConfigError.contrastRange
  else if saturation < 0 ∨ 1 < saturation then Except.error ConfigError.saturationRange
  else if sameAsPrefetched prev incoming then Except.ok true
  else if pack = true ∧ rm ≠ ResizeMethod.fixedSize then
    Except.error ConfigError.packNeedsFixedResize
  else Except.ok false

/-- C7 counterexample: the claim "every call that selects packed mode
without a fixed-size resize raises a configuration error" is false.  The
pack/fixed-resize check sits inside the `!sameAsPrefeteched` branch of
`mexFunction`, so a call whose filename list matches the prefetched batch
(here the second call with the same single file) reuses the batch and never
reaches the check: the call returns normally despite `Pack` with no resize. -/
theorem c7_pack_check_skipped_on_reuse :
    processCall ["a.jpg"] ["a.jpg"] true ResizeMethod.noResize 0 0 = Except.ok true := by
  have hsame : sameAsPrefetched ["a.jpg"] ["a.jpg"] = true := by decide
  simp [processCall, hsame]
  norm_num

/-- C7 amended: on every call that starts a new cycle (the incoming
filenames do not match the prefetched ones) packed mode without fixed-size
resize is rejected; contrast or saturation scalars outside [0,1] are
rejected on *every* call during option parsing — the second and third
conjuncts hold for arbitrary filenames `prev2`/`incoming2` (in particular a
reusing call), packing flag and resize mode, because the scalar checks run
before the filename comparison; and a requested worker count below 1 is
coerced to 1 (`std::max(requestedNumThreads, 1)`), never rejected. -/
theorem c7_config_checks (prev incoming : List String) (rm : ResizeMethod)
    (prev2 incoming2 : List String) (pack2 : Bool) (rm2 : ResizeMethod)
    (c s cbad sbad : ℚ) (n : ℤ)
    (hnew : sameAsPrefetched prev incoming = false)
    (hrm : rm ≠ ResizeMethod.fixedSize)
    (hc0 : 0 ≤ c) (hc1 : c ≤ 1) (hs0 : 0 ≤ s) (hs1 : s ≤ 1)
    (hcbad : cbad < 0 ∨ 1 < cbad) (hsbad : sbad < 0 ∨ 1 < sbad) :
    processCall prev incoming true rm c s = Except.error ConfigError.packNeedsFixedResize
    ∧ processCall prev2 incoming2 pack2 rm2 cbad s = Except.error ConfigError.contrastRange
    ∧ processCall prev2 incoming2 pack2 rm2 c sbad = Except.error ConfigError.saturationRange
    ∧ (n < 1 → effectiveNumThreads n = 1) ∧ 1 ≤ effectiveNumThreads n := by
  have hcok : ¬ (c < 0 ∨ 1 < c) := by push_neg; exact ⟨hc0, hc1⟩
  have hsok : ¬ (s < 0 ∨ 1 < s) := by push_neg; exact ⟨hs0, hs1⟩
  refine ⟨?_, ?_, ?_, ?_, ?_⟩
  · simp [processCall, hcok, hsok, hnew, hrm]
  · simp [processCall, hcbad]
  · simp [processCall, hcok, hsbad]
  · intro hn
    simp only [effectiveNumThreads]
    omega
  · simp only [effectiveNumThreads]
    omega

/-- C7 witness: the amended checks at concrete calls.  The pack rejection is
exercised on a new-cycle call (incoming `["b.jpg"]` against prefetched
`["a.jpg"]`); the scalar rejections are exercised on a *reusing* call
(`["a.jpg"]` against `["a.jpg"]`, with `Pack` and no resize), where they
still fire because option parsing precedes the filename comparison. -/
theorem c7_config_checks_witness :
    (sameAsPrefetched ["a.jpg"] ["b.jpg"] = false
     ∧ sameAsPrefetched ["a.jpg"] ["a.jpg"] = true)
    ∧ (processCall ["a.jpg"] ["b.jpg"] true ResizeMethod.noResize 0 0
         = Except.error ConfigError.packNeedsFixedResize
       ∧ processCall ["a.jpg"] ["a.jpg"] true ResizeMethod.noResize 2 0
         = Except.error ConfigError.contrastRange
       ∧ processCall ["a.jpg"] ["a.jpg"] true ResizeMethod.noResize 0 (-1)
         = Except.error ConfigError.saturationRange
       ∧ ((0 : ℤ) < 1 → effectiveNumThreads 0 = 1) ∧ 1 ≤ effectiveNumThreads 0) :=
  ⟨⟨by decide, by decide⟩,
   c7_config_checks ["a.jpg"] ["b.jpg"] ResizeMethod.noResize
     ["a.jpg"] ["a.jpg"] true ResizeMethod.noResize 0 0 2 (-1) 0
     (by decide) (by decide) (by norm_num) (by norm_num) (by norm_num) (by norm_num)
     (by norm_num) (by norm_num)⟩

/- ------------------------------------------------------------------ -/
/- Crop anisotropy: parser check vs. setter assertions                -/
/- ------------------------------------------------------------------ -/

/-- The option parser's acceptance test for `CROPANISOTROPY`
(`mexFunction`): the pair is rejected iff
`minCropAnisotropy < 0.0 || minCropAnisotropy > maxCropAnisotropy`. -/
def anisotropyParserAccepts (aMin aMax : ℚ) : Bool :=
  !(decide (aMin < 0) || decide (aMax < aMin))

/-- The assertions executed by `Batch::setCropAnisotropy`:
`assert(minAnisotropy <= maxAnisotropy)` and
`assert(0.0 <= minAnisotropy && minAnisotropy <= 1.0)`. -/
def setCropAnisotropyAsserts (aMin aMax : ℚ) : Bool :=
  decide (aMin ≤ aMax) && (decide (0 ≤ aMin) && decide (aMin ≤ 1))

/-- C10 counterexample: the pair (2, 3) is accepted by the option parser
(`0 ≤ 2 ≤ 3`), yet `Batch::setCropAnisotropy`, which the dispatcher calls
with exactly the parsed values, asserts `minAnisotropy ≤ 1`, which fails.
So not every parser-accepted configuration satisfies the setter's
assertions. -/
theorem c10_parser_accepts_assert_violation :
    anisotropyParserAccepts 2 3 = true ∧ setCropAnisotropyAsserts 2 3 = false := by
  constructor
  · norm_num [anisotropyParserAccepts]
  · norm_num [setCropAnisotropyAsserts]

/-- C10 amended: a parser-accepted anisotropy pair always satisfies the
setter's first assertion and the lower bound of the second
(`aMin ≤ aMax` and `0 ≤ aMin`); the remaining conjunct `aMin ≤ 1` is not
implied, so the setter's assertions all hold exactly when additionally
`aMin ≤ 1`. -/
theorem c10_parser_vs_asserts (aMin aMax : ℚ)
    (h : anisotropyParserAccepts aMin aMax = true) :
    aMin ≤ aMax ∧ 0 ≤ aMin ∧ (aMin ≤ 1 → setCropAnisotropyAsserts aMin aMax = true) := by
  simp only [anisotropyParserAccepts, Bool.not_eq_true', Bool.or_eq_false_iff,
    decide_eq_false_iff_not, not_lt] at h
  exact ⟨h.2, h.1, fun h1 => by
    simp [setCropAnisotropyAsserts, h.1, h.2, h1]⟩

/-- C10 witness: the amended statement at the parser-accepted pair
(1/2, 2). -/
theorem c10_parser_vs_asserts_witness :
    anisotropyParserAccepts (1/2) 2 = true
    ∧ ((1:ℚ)/2 ≤ 2 ∧ 0 ≤ (1:ℚ)/2
       ∧ ((1:ℚ)/2 ≤ 1 → setCropAnisotropyAsserts (1/2) 2 = true)) :=
  ⟨by norm_num [anisotropyParserAccepts],
   c10_parser_vs_asserts (1/2) 2 (by norm_num [anisotropyParserAccepts])⟩

/- ------------------------------------------------------------------ -/
/- Brightness shift computation (Batch::prefetch)                     -/
/- ------------------------------------------------------------------ -/

/-- Embedding of the brightness-shift loop in `Batch::prefetch`:
`item->brightnessShift[i] = 0` followed by
`for j < numChannels: brightnessShift[i] += brightnessDeviation[i + 3*j] * w[i]`.
`B` is the column-major 3x3 deviation matrix (`brightnessDeviation[9]`) and
`w` the vector of standard-normal draws. -/
def brightnessShiftLoop (B w : ℕ → ℚ) (numChannels i : ℕ) : ℚ :=
  (List.range numChannels).foldl (fun acc j => acc + B (i + 3*j) * w i) 0

/-- C9: for a three-channel output the loop computes
`brightnessShift[i] = Σⱼ B[i + 3j] · w[i]` — the weight factor uses index
`i`, not `j`, so the result is `(Σⱼ B[i + 3j]) · w[i]` and differs in
general from the matrix-vector product `Σⱼ B[i + 3j] · w[j]` (last
conjunct: a concrete 3x3 matrix and weight vector where the two differ). -/
theorem c9_brightness_shift (B w : ℕ → ℚ) (i : ℕ) :
    brightnessShiftLoop B w 3 i = ∑ j ∈ Finset.range 3, B (i + 3*j) * w i
    ∧ brightnessShiftLoop B w 3 i = (∑ j ∈ Finset.range 3, B (i + 3*j)) * w i
    ∧ ¬ (∀ (B2 w2 : ℕ → ℚ) (i2 : ℕ),
          brightnessShiftLoop B2 w2 3 i2 = ∑ j ∈ Finset.range 3, B2 (i2 + 3*j) * w2 j) := by
  have hexp : brightnessShiftLoop B w 3 i
      = B (i + 3*0) * w i + B (i + 3*1) * w i + B (i + 3*2) * w i := by
    simp [brightnessShiftLoop, show List.range 3 = [0, 1, 2] from rfl]
  refine ⟨?_, ?_, ?_⟩
  · rw [hexp]
    rw [Finset.sum_range_succ, Finset.sum_range_succ, Finset.sum_range_one]
  · rw [hexp]
    rw [Finset.sum_range_succ, Finset.sum_range_succ, Finset.sum_range_one]
    ring
  · intro hall
    have h0 := hall (fun _ => 1) (fun k => if k = 0 then 0 else 1) 0
    rw [Finset.sum_range_succ, Finset.sum_range_succ, Finset.sum_range_one] at h0
    simp [brightnessShiftLoop, show List.range 3 = [0, 1, 2] from rfl] at h0
    norm_num at h0

/- ------------------------------------------------------------------ -/
/- Color augmentation (ReaderTask::entryPoint, "Postprocess colors")  -/
/- ------------------------------------------------------------------ -/

/-- Embedding of the `dv` computation in `ReaderTask::entryPoint`: the local
array `float dv[3]` has no initializer, and the loop
`for (k = 0; k < item->shape.depth; ++k)` writes
`dv[k] = (1 - 2*contrastShift) * (avg[k] + brightnessShift[k])` and, when
`contrastShift != 1`, subtracts `(1 - contrastShift) * mean(channel k)`.
Entries with `k >= shape.depth` are never written; reading them is reading
uninitialized stack memory, modelled as `none`.  `c` is the item's
`contrastShift`, `chanMean k` the mean of output channel `k`. -/
def dvShift (depth : ℕ) (c : ℚ) (avg bs chanMean : ℕ → ℚ) (k : ℕ) : Option ℚ :=
  if k < depth then
    some ((1 - 2*c) * (avg k + bs k) - (if c ≠ 1 then (1 - c) * chanMean k else 0))
  else none

/-- Embedding of one pixel of the `K == 3 && item->shape.depth == 1`
(grayscale broadcast) branch: with `a = contrastShift * saturationShift` and
`b = contrastShift * (1 - saturationShift) / K`, it reads the single input
channel value `ch0` three times, forms `v[k] = ch0 + dv[k]` and
`mu = v[0] + v[1] + v[2]`, and writes `a*v[k] + b*mu` to the three output
channels.  The result is well-defined only if all three `dv` entries were
written. -/
def grayBroadcastPixel (c s : ℚ) (dv : ℕ → Option ℚ) (ch0 : ℚ) : Option (ℚ × ℚ × ℚ) :=
  match dv 0, dv 1, dv 2 with
  | some d0, some d1, some d2 =>
      let a := c * s
      let b := c * (1 - s) / 3
      let v0 := ch0 + d0
      let v1 := ch0 + d1
      let v2 := ch0 + d2
      let mu := v0 + v1 + v2
      some (a * v0 + b * mu, a * v1 + b * mu, a * v2 + b * mu)
  | _, _, _ => none

/-- C5: evaluation at the failing configuration.  In the grayscale-broadcast
case the `dv` loop bound is `item->shape.depth = 1`, so only `dv[0]` is
assigned (first conjunct, matching the claim's formula for k = 0); `dv[1]`
and `dv[2]` remain uninitialized (conjuncts two and three) although the
broadcast branch reads all three, so the per-pixel result is undefined
(fourth conjunct).  In the 3-channel case the same loop does define `dv[2]`
by the claim's formula (last conjunct), confirming the intent the grayscale
case misses. -/
theorem c5_grayscale_dv_uninitialized :
    dvShift 1 (1/2) (fun k => (k : ℚ)) (fun _ => 1) (fun _ => 2) 0 = some (-1)
    ∧ dvShift 1 (1/2) (fun k => (k : ℚ)) (fun _ => 1) (fun _ => 2) 1 = none
    ∧ dvShift 1 (1/2) (fun k => (k : ℚ)) (fun _ => 1) (fun _ => 2) 2 = none
    ∧ grayBroadcastPixel (1/2) (1/2)
        (dvShift 1 (1/2) (fun k => (k : ℚ)) (fun _ => 1) (fun _ => 2)) 5 = none
    ∧ dvShift 3 (1/2) (fun k => (k : ℚ)) (fun _ => 1) (fun _ => 2) 2
        = some ((1 - 2*(1/2)) * ((2 : ℚ) + 1) - (1 - 1/2) * 2) := by
  refine ⟨?_, rfl, rfl, rfl, ?_⟩
  · norm_num [dvShift]
  · norm_num [dvShift]

/- ------------------------------------------------------------------ -/
/- Crop plan (Batch::prefetch, crop shape / size / location)          -/
/- ------------------------------------------------------------------ -/

/-- The crop placement policies (`Batch::CropLocation`). -/
inductive CropLocation where
  | cropCenter
  | cropRandom
deriving DecidableEq

/-- Guarded rational division standing for C `double` division: `none` when
the C expression divides by zero (producing inf/NaN and, downstream,
undefined integer values). -/
def divQ (a b : ℚ) : Option ℚ :=
  if b = 0 then none else some (a / b)

/-- Embedding of the crop computation of `Batch::prefetch` for one item,
after `outputWidth`/`outputHeight` are known and the anisotropy and size
draws are fixed: `cropWidth = outputWidth * anisotropyRatio`,
`cropHeight = outputHeight / anisotropyRatio`,
`scale = min(shape.width/cropWidth, shape.height/cropHeight)`, both crop
dimensions multiplied by `scale * size`, rounded and clamped to the input,
then placed by the center rule `(d+1)/2` or the random rule `rand() % (d+1)`.
Returns `(cropOffsetX, cropOffsetY, cropWidth, cropHeight)`; `rx`, `ry` are
the `rand()` draws of the random placement. -/
def cropPlan (inW inH outW outH : ℕ) (aniso size : ℚ) (loc : CropLocation)
    (rx ry : ℕ) : Option (ℤ × ℤ × ℤ × ℤ) :=
  let cw0 : ℚ := (outW : ℚ) * aniso
  (divQ (outH : ℚ) aniso).bind fun ch0 =>
  (divQ (inW : ℚ) cw0).bind fun s1 =>
  (divQ (inH : ℚ) ch0).bind fun s2 =>
  let scale := min s1 s2
  let cw1 := cw0 * (scale * size)
  let ch1 := ch0 * (scale * size)
  let cropW : ℤ := min (round cw1) (inW : ℤ)
  let cropH : ℤ := min (round ch1) (inH : ℤ)
  let dx : ℤ := (inW : ℤ) - cropW
  let dy : ℤ := (inH : ℤ) - cropH
  match loc with
  | CropLocation.cropCenter => some ((dx+1)/2, (dy+1)/2, cropW, cropH)
  | CropLocation.cropRandom => some ((rx : ℤ) % (dx+1), (ry : ℤ) % (dy+1), cropW, cropH)

/-- C6 counterexample: the claim quantifies over "every sampled anisotropy
and size in the configured ranges", but the range [0, 1] is parser-legal
(first conjunct) and the draw `z = 0` (i.e. `rand() = 0`) samples anisotropy
`0 * (1 - 0) + 0 = 0` (second conjunct), for which `Batch::prefetch`
divides by zero (`cropHeight = outputHeight / anisotropyRatio`), so no
well-defined crop rectangle exists at all (third conjunct) — in the C code
the crop height becomes inf, then NaN after `cropHeight *= scale * size`,
and its conversion to `size_t` is undefined, so the bound
`crop_y + crop_h <= input_h` cannot be guaranteed. -/
theorem c6_anisotropy_zero_breaks_crop :
    anisotropyParserAccepts 0 1 = true
    ∧ sampleUniform 0 1 0 = 0
    ∧ cropPlan 4 4 4 4 0 1 CropLocation.cropCenter 0 0 = none := by
  refine ⟨by norm_num [anisotropyParserAccepts], by norm_num [sampleUniform], ?_⟩
  rfl

/-- C6 amended: for every item whose probe succeeded (input sides >= 1),
every positive sampled anisotropy, every sampled size in [0, 1] and both
placement policies, the crop rectangle exists and satisfies
`0 <= crop_x`, `crop_x + crop_w <= input_w`, `0 <= crop_y`,
`crop_y + crop_h <= input_h`.  The positivity restriction on the anisotropy
is forced by the zero-anisotropy counterexample; the stretch branch
(`minCropAnisotropy == maxCropAnisotropy == 0`) also yields a positive
ratio, so it is covered as well. -/
theorem c6_crop_in_bounds (inW inH outW outH : ℕ) (aniso size : ℚ)
    (loc : CropLocation) (rx ry : ℕ)
    (hinW : 1 ≤ inW) (hinH : 1 ≤ inH) (houtW : 1 ≤ outW) (houtH : 1 ≤ outH)
    (haniso : 0 < aniso) (hsize0 : 0 ≤ size) (hsize1 : size ≤ 1) :
    ∃ ox oy cw ch,
      cropPlan inW inH outW outH aniso size loc rx ry = some (ox, oy, cw, ch)
      ∧ 0 ≤ ox ∧ ox + cw ≤ (inW : ℤ) ∧ 0 ≤ oy ∧ oy + ch ≤ (inH : ℤ) := by
  have ha : aniso ≠ 0 := ne_of_gt haniso
  have houtWQ : (0 : ℚ) < (outW : ℚ) := by exact_mod_cast houtW
  have houtHQ : (0 : ℚ) < (outH : ℚ) := by exact_mod_cast houtH
  have hcw0 : (0 : ℚ) < (outW : ℚ) * aniso := mul_pos houtWQ haniso
  have hch0 : (0 : ℚ) < (outH : ℚ) / aniso := div_pos houtHQ haniso
  have hcw0ne : (outW : ℚ) * aniso ≠ 0 := ne_of_gt hcw0
  have hch0ne : (outH : ℚ) / aniso ≠ 0 := ne_of_gt hch0
  have hscale : (0 : ℚ) ≤ min ((inW : ℚ) / ((outW : ℚ) * aniso))
      ((inH : ℚ) / ((outH : ℚ) / aniso)) :=
    le_min (div_nonneg (Nat.cast_nonneg inW) hcw0.le)
      (div_nonneg (Nat.cast_nonneg inH) hch0.le)
  have hss : (0 : ℚ) ≤ min ((inW : ℚ) / ((outW : ℚ) * aniso))
      ((inH : ℚ) / ((outH : ℚ) / aniso)) * size := mul_nonneg hscale hsize0
  have hcw1 : (0 : ℚ) ≤ (outW : ℚ) * aniso *
      (min ((inW : ℚ) / ((outW : ℚ) * aniso)) ((inH : ℚ) / ((outH : ℚ) / aniso)) * size) :=
    mul_nonneg hcw0.le hss
  have hch1 : (0 : ℚ) ≤ (outH : ℚ) / aniso *
      (min ((inW : ℚ) / ((outW : ℚ) * aniso)) ((inH : ℚ) / ((outH : ℚ) / aniso)) * size) :=
    mul_nonneg hch0.le hss
  have hroundW : 0 ≤ round ((outW : ℚ) * aniso *
      (min ((inW : ℚ) / ((outW : ℚ) * aniso)) ((inH : ℚ) / ((outH : ℚ) / aniso)) * size)) := by
    rw [round_eq]
    refine Int.le_floor.mpr ?_
    push_cast
    linarith
  have hroundH : 0 ≤ round ((outH : ℚ) / aniso *
      (min ((inW : ℚ) / ((outW : ℚ) * aniso)) ((inH : ℚ) / ((outH : ℚ) / aniso)) * size)) := by
    rw [round_eq]
    refine Int.le_floor.mpr ?_
    push_cast
    linarith
  simp only [cropPlan, divQ, if_neg ha, if_neg hcw0ne, if_neg hch0ne, Option.some_bind]
  set rW : ℤ := round ((outW : ℚ) * aniso *
      (min ((inW : ℚ) / ((outW : ℚ) * aniso)) ((inH : ℚ) / ((outH : ℚ) / aniso)) * size)) with hrW
  set rH : ℤ := round ((outH : ℚ) / aniso *
      (min ((inW : ℚ) / ((outW : ℚ) * aniso)) ((inH : ℚ) / ((outH : ℚ) / aniso)) * size)) with hrH
  have hcwle : min rW (inW : ℤ) ≤ (inW : ℤ) := min_le_right _ _
  have hcwge : 0 ≤ min rW (inW : ℤ) := le_min hroundW (by exact_mod_cast Nat.zero_le inW)
  have hchle : min rH (inH : ℤ) ≤ (inH : ℤ) := min_le_right _ _
  have hchge : 0 ≤ min rH (inH : ℤ) := le_min hroundH (by exact_mod_cast Nat.zero_le inH)
  cases loc with
  | cropCenter =>
    refine ⟨_, _, _, _, rfl, ?_, ?_, ?_, ?_⟩ <;> omega
  | cropRandom =>
    have hmodx0 : 0 ≤ (rx : ℤ) % ((inW : ℤ) - min rW (inW : ℤ) + 1) :=
      Int.emod_nonneg _ (by omega)
    have hmodx1 : (rx : ℤ) % ((inW : ℤ) - min rW (inW : ℤ) + 1)
        < (inW : ℤ) - min rW (inW : ℤ) + 1 :=
      Int.emod_lt_of_pos _ (by omega)
    have hmody0 : 0 ≤ (ry : ℤ) % ((inH : ℤ) - min rH (inH : ℤ) + 1) :=
      Int.emod_nonneg _ (by omega)
    have hmody1 : (ry : ℤ) % ((inH : ℤ) - min rH (inH : ℤ) + 1)
        < (inH : ℤ) - min rH (inH : ℤ) + 1 :=
      Int.emod_lt_of_pos _ (by omega)
    refine ⟨_, _, _, _, rfl, ?_, ?_, ?_, ?_⟩ <;> omega

/-- C6 witness: the amended bounds at a concrete item (4x4 input, 4x4
output, anisotropy 1, size 1, center placement). -/
theorem c6_crop_in_bounds_witness :
    (1 ≤ 4 ∧ (0 : ℚ) < 1 ∧ (0 : ℚ) ≤ 1 ∧ (1 : ℚ) ≤ 1)
    ∧ ∃ ox oy cw ch,
        cropPlan 4 4 4 4 1 1 CropLocation.cropCenter 0 0 = some (ox, oy, cw, ch)
        ∧ 0 ≤ ox ∧ ox + cw ≤ (4 : ℤ) ∧ 0 ≤ oy ∧ oy + ch ≤ (4 : ℤ) :=
  ⟨by norm_num,
   c6_crop_in_bounds 4 4 4 4 1 1 CropLocation.cropCenter 0 0
     (by norm_num) (by norm_num) (by norm_num) (by norm_num)
     (by norm_num) (by norm_num) (by norm_num)⟩

/- ------------------------------------------------------------------ -/
/- Worker pipeline and result emission (ReaderTask / mexFunction)     -/
/- ------------------------------------------------------------------ -/

/-- Final record of one item after both phases, as the dispatcher sees it at
result-emission time: the item's `name`, its `error` field (`none` stands
for `vl::VLE_Success`, `some msg` for a recorded `errorMessage`), the
decoded `output` (tagged by its probed shape), and whether the fetch-phase
decode work actually ran for it. -/
structure ItemFinal where
  name : String
  error : Option String
  output : Option (ℕ × ℕ × ℕ)
  decoded : Bool
deriving DecidableEq

/-- Success test on a probe result. -/
def isOkE (e : Except String (ℕ × ℕ × ℕ)) : Bool :=
  match e with
  | Except.ok _ => true
  | Except.error _ => false

/-- Embedding of one item's passage through `ReaderTask::entryPoint` over
the two phases.  Probe phase: `reader->readShape` either records the shape
or sets `item->error` plus `errorMessage`.  Fetch phase: the worker first
checks `if (item->error != vl::VLE_Success) { returnItem; continue; }`, so
an item whose probe failed is returned untouched (`decoded = false`);
otherwise `reader->readPixels` runs and either fills the output or records
the decode error.  `probe` and `decodeOk` abstract the external
`vl::ImageReader`. -/
def runItem (probe : String → Except String (ℕ × ℕ × ℕ)) (decodeOk : String → Bool)
    (name : String) : ItemFinal :=
  match probe name with
  | Except.error m => { name := name, error := some m, output := none, decoded := false }
  | Except.ok sh =>
      if decodeOk name then
        { name := name, error := none, output := some sh, decoded := true }
      else
        { name := name, error := some "could not decode", output := none, decoded := true }

/-- Batch outcome: each registered item is borrowed and processed by exactly
one worker per phase, and a worker's writes touch only the item it borrowed
(`ReaderTask::entryPoint` reads and writes `item->...` only; the plans are
written per item by `Batch::prefetch`), so the final records are the
independent per-item results, in registration order. -/
def runBatch (probe : String → Except String (ℕ × ℕ × ℕ)) (decodeOk : String → Bool)
    (names : List String) : List ItemFinal :=
  names.map (runItem probe decodeOk)

/-- Result emission for individual packing (`mexFunction`, the
`Batch::individualArrays` case): for every item, an item with
`error != vl::VLE_Success` leaves its cell empty, the others relinquish
their array (`mxSetCell(out, i, item->relinquishArray())`). -/
def emitCells (items : List ItemFinal) : List (Option (ℕ × ℕ × ℕ)) :=
  items.map fun it =>
    match it.error with
    | some _ => none
    | none => it.output

/-- The warnings emitted while publishing results: one
`vlmxWarning(..., item->name, item->errorMessage)` per item whose error is
set, in item order. -/
def emitWarnings (items : List ItemFinal) : List (String × String) :=
  items.filterMap fun it => it.error.map fun m => (it.name, m)

/-- An item record keeps the name it was registered with. -/
theorem runItem_name (probe : String → Except String (ℕ × ℕ × ℕ))
    (decodeOk : String → Bool) (n : String) :
    (runItem probe decodeOk n).name = n := by
  unfold runItem
  cases probe n with
  | error m => rfl
  | ok sh =>
    by_cases hd : decodeOk n <;> simp [hd]

/-- A successfully probed and decoded item yields a clean record carrying
its probed shape. -/
theorem runItem_ok (probe : String → Except String (ℕ × ℕ × ℕ))
    (decodeOk : String → Bool) (n : String)
    (hp : isOkE (probe n) = true) (hd : decodeOk n = true) :
    ∃ sh, probe n = Except.ok sh
      ∧ runItem probe decodeOk n
          = { name := n, error := none, output := some sh, decoded := true } := by
  cases h : probe n with
  | error m => rw [h] at hp; simp [isOkE] at hp
  | ok sh => exact ⟨sh, rfl, by simp [runItem, h, hd]⟩

/-- A `filterMap` in which exactly one index can contribute produces the
singleton of that contribution. -/
theorem filterMap_eq_singleton_of_unique {α γ : Type} (g : α → Option γ)
    (l : List α) (k : ℕ) (hk : k < l.length) (c : γ)
    (hkv : g l[k] = some c)
    (hothers : ∀ j (hj : j < l.length), j ≠ k → g l[j] = none) :
    l.filterMap g = [c] := by
  induction l generalizing k with
  | nil => simp at hk
  | cons a t ih =>
    cases k with
    | zero =>
      simp only [List.getElem_cons_zero] at hkv
      have ht : List.filterMap g t = [] := by
        rw [List.filterMap_eq_nil_iff]
        intro x hx
        obtain ⟨j, hj, hx2⟩ := List.mem_iff_getElem.mp hx
        rw [← hx2]
        have := hothers (j+1) (by simpa using Nat.succ_lt_succ hj) (by omega)
        simpa using this
      simp [List.filterMap_cons, hkv, ht]
    | succ k2 =>
      have ha : g a = none := by
        have := hothers 0 (by omega) (by omega)
        simpa using this
      have hk2 : k2 < t.length := by simpa [Nat.succ_lt_succ_iff] using hk
      have hkv2 : g t[k2] = some c := by simpa using hkv
      have hothers2 : ∀ j (hj : j < t.length), j ≠ k2 → g t[j] = none := by
        intro j hj hne
        have := hothers (j+1) (by simpa using Nat.succ_lt_succ hj) (by omega)
        simpa using this
      simp [List.filterMap_cons, ha, ih k2 hk2 hkv2 hothers2]

/-- C8: a per-item read failure is isolated.  If item `k`'s pipeline records
an error message while every other item probes and decodes successfully,
then: the emitted cell list still has one slot per filename (the batch
completes); every item `j ≠ k` produces its well-formed output (its probed
shape) and carries no error; item `k`'s slot is left empty; if the failure
was a probe failure, the worker skipped all fetch work for item `k`; and
exactly one warning is emitted, naming item `k` and its message. -/
theorem c8_error_isolation (probe : String → Except String (ℕ × ℕ × ℕ))
    (decodeOk : String → Bool) (names : List String) (k : ℕ) (msg : String)
    (hk : k < names.length)
    (hkfail : (runItem probe decodeOk names[k]).error = some msg)
    (hok : ∀ j (hj : j < names.length), j ≠ k →
        isOkE (probe names[j]) = true ∧ decodeOk names[j] = true) :
    (emitCells (runBatch probe decodeOk names)).length = names.length
    ∧ (∀ j (hj : j < names.length), j ≠ k → ∃ sh,
         probe names[j] = Except.ok sh
         ∧ (emitCells (runBatch probe decodeOk names))[j]? = some (some sh)
         ∧ ((runBatch probe decodeOk names).map ItemFinal.error)[j]? = some none)
    ∧ (emitCells (runBatch probe decodeOk names))[k]? = some none
    ∧ (probe names[k] = Except.error msg →
        ((runBatch probe decodeOk names).map ItemFinal.decoded)[k]? = some false)
    ∧ emitWarnings (runBatch probe decodeOk names) = [(names[k], msg)] := by
  refine ⟨?_, ?_, ?_, ?_, ?_⟩
  · simp [emitCells, runBatch]
  · intro j hj hne
    obtain ⟨hp, hd⟩ := hok j hj hne
    obtain ⟨sh, hpsh, hitem⟩ := runItem_ok probe decodeOk names[j] hp hd
    refine ⟨sh, hpsh, ?_, ?_⟩
    · simp [emitCells, runBatch, List.getElem?_map, List.getElem?_eq_getElem hj, hitem]
    · simp [runBatch, List.getElem?_map, List.getElem?_eq_getElem hj, hitem]
  · simp [emitCells, runBatch, List.getElem?_map, List.getElem?_eq_getElem hk, hkfail]
  · intro hpk
    simp [runBatch, List.getElem?_map, List.getElem?_eq_getElem hk, runItem, hpk]
  · unfold emitWarnings runBatch
    refine filterMap_eq_singleton_of_unique _ _ k (by simpa using hk) (names[k], msg) ?_ ?_
    · simp only [List.getElem_map]
      rw [hkfail]
      simp [runItem_name]
    · intro j hj hne
      have hj2 : j < names.length := by simpa using hj
      obtain ⟨hp, hd⟩ := hok j hj2 hne
      obtain ⟨sh, hpsh, hitem⟩ := runItem_ok probe decodeOk names[j] hp hd
      simp only [List.getElem_map]
      rw [hitem]
      simp

/-- Concrete probe oracle for the C8 witness: `MISSING.jpg` fails with
"file not found", every other path probes as a 64x48x3 image. -/
def probeW : String → Except String (ℕ × ℕ × ℕ) :=
  fun s => if s = "MISSING.jpg" then Except.error "file not found" else Except.ok (64, 48, 3)

/-- Concrete decode oracle for the C8 witness: every decode succeeds. -/
def decodeW : String → Bool := fun _ => true

/-- Concrete batch for the C8 witness. -/
def namesW : List String := ["A.jpg", "MISSING.jpg", "C.jpg"]

/-- C8 witness: error isolation applied to the concrete batch
[A.jpg, MISSING.jpg, C.jpg] in which only `MISSING.jpg` fails to probe. -/
theorem c8_error_isolation_witness :
    (runItem probeW decodeW "MISSING.jpg").error = some "file not found"
    ∧ (emitCells (runBatch probeW decodeW namesW)).length = namesW.length
    ∧ (emitCells (runBatch probeW decodeW namesW))[1]? = some none
    ∧ emitWarnings (runBatch probeW decodeW namesW) = [("MISSING.jpg", "file not found")] := by
  have h := c8_error_isolation probeW decodeW namesW 1 "file not found"
    (by decide) (by decide) (by decide)
  obtain ⟨h1, _, h3, _, h5⟩ := h
  refine ⟨by decide, h1, h3, ?_⟩
  have hname : namesW[1] = "MISSING.jpg" := rfl
  rw [← hname]
  exact h5
